import Mathlib

/-!
Verification development for the transaction server actions of a
personal-finance application (file src/unnamed/part_000).

The development shallowly embeds the three exported server actions
(createTransaction, scanReceipt, createTransactionFromPrompt) and the
helper calculateNextRecurringDate.  External collaborators (identity
provider, admission control, the relational store, the AI oracle and
the host JavaScript runtime) are modelled explicitly:

* JavaScript numbers are IEEE-754 binary64 values; arithmetic on them
  is modelled by exact rationals together with round-to-nearest-even
  at 53 significant bits (normal range, unbounded exponent).
* The database is a record of lists of rows; the Prisma transaction
  primitive is an atomic state transformation.
* The identity provider and the admission-control decision are inputs
  of the embedded functions, as is the oracle response.
-/

/-! ### IEEE-754 binary64 rounding model

JavaScript numbers are binary64 floats.  A finite float is an exact
rational; converting an exact decimal (the stored balance) to a float
and adding floats rounds to nearest, ties to even, at 53 bits of
significand.  The model below implements that rounding on rationals,
with an unbounded exponent range (no overflow or subnormal handling;
faithful for all magnitudes occurring in this development). -/

/-- Fuel-bounded search for the binary exponent of a rational at least one:
number of halvings needed to bring the value below two. -/
def qexpNat : ℕ → ℚ → ℕ
  | 0, _ => 0
  | fuel+1, q => if q < 2 then 0 else qexpNat fuel (q/2) + 1

/-- Fuel-bounded search for the binary exponent of a positive rational below
one: number of doublings needed to reach at least one. -/
def qexpNeg : ℕ → ℚ → ℕ
  | 0, _ => 0
  | fuel+1, q => if 1 ≤ q * 2 then 1 else qexpNeg fuel (q*2) + 1

/-- Binary exponent of a positive rational: the unique e with
2 ^ e ≤ q < 2 ^ (e+1), for magnitudes within the fuel bound. -/
def qexp (q : ℚ) : ℤ := if 1 ≤ q then (qexpNat 4200 q : ℤ) else -((qexpNeg 4200 q : ℕ) : ℤ)

/-- Round a rational to the nearest integer, ties to even. -/
def rne (q : ℚ) : ℤ :=
  if q - ⌊q⌋ < 1/2 then ⌊q⌋
  else if 1/2 < q - ⌊q⌋ then ⌊q⌋ + 1
  else if ⌊q⌋ % 2 = 0 then ⌊q⌋ else ⌊q⌋ + 1

/-- Round a rational to the nearest IEEE-754 binary64 value
(round to nearest, ties to even, 53-bit significand, unbounded exponent). -/
def b64round (q : ℚ) : ℚ :=
  if q = 0 then 0
  else
    let s := |q|
    let e := qexp s
    let v := (rne (s * 2 ^ ((52:ℤ) - e)) : ℚ) * 2 ^ (e - 52)
    if 0 < q then v else -v

/-- A JavaScript number: either NaN or a finite value (an exact rational). -/
inductive JsNum where
  | nan : JsNum
  | val : ℚ → JsNum
deriving DecidableEq, Repr

/-- JavaScript unary minus on numbers (exact; NaN propagates). -/
def jsNegN : JsNum → JsNum
  | .nan => .nan
  | .val q => .val (-q)

/-- JavaScript addition on numbers: exact sum rounded to binary64;
NaN propagates. -/
def jsAddN : JsNum → JsNum → JsNum
  | .nan, _ => .nan
  | _, .nan => .nan
  | .val a, .val b => .val (b64round (a + b))

/-- Conversion of a stored exact decimal to a JavaScript number
(the Decimal toNumber method): rounding to binary64. -/
def jsRound : JsNum → JsNum
  | .nan => .nan
  | .val q => .val (b64round q)

section FloatLemmas

lemma qexpNat_spec : ∀ (fuel : ℕ) (q : ℚ), 1 ≤ q → q < 2 ^ fuel →
    (2:ℚ) ^ (qexpNat fuel q) ≤ q ∧ q < 2 ^ (qexpNat fuel q + 1) := by
  intro fuel
  induction fuel with
  | zero =>
    intro q h1 h2
    simp only [pow_zero] at h2
    linarith
  | succ n ih =>
    intro q h1 h2
    by_cases h : q < 2
    · simp only [qexpNat, if_pos h, pow_zero, pow_one]
      exact ⟨h1, h⟩
    · push_neg at h
      simp only [qexpNat, if_neg (not_lt.mpr h)]
      have h1' : 1 ≤ q / 2 := by linarith
      have h2' : q / 2 < 2 ^ n := by
        rw [div_lt_iff (by norm_num : (0:ℚ) < 2)]
        calc q < 2 ^ (n+1) := h2
        _ = 2 ^ n * 2 := by ring
      obtain ⟨ha, hb⟩ := ih (q/2) h1' h2'
      constructor
      · calc (2:ℚ) ^ (qexpNat n (q/2) + 1) = 2 ^ (qexpNat n (q/2)) * 2 := by ring
        _ ≤ (q/2) * 2 := by nlinarith
        _ = q := by ring
      · calc q = (q/2) * 2 := by ring
        _ < 2 ^ (qexpNat n (q/2) + 1) * 2 := by nlinarith
        _ = 2 ^ (qexpNat n (q/2) + 1 + 1) := by ring

lemma qexpNeg_spec : ∀ (fuel : ℕ) (q : ℚ), 0 < q → q < 1 → 1 ≤ q * 2 ^ (fuel+1) →
    1 ≤ q * 2 ^ (qexpNeg (fuel+1) q) ∧ q * 2 ^ (qexpNeg (fuel+1) q) < 2 := by
  intro fuel
  induction fuel with
  | zero =>
    intro q h0 h1 h2
    have hp : (2:ℚ) ^ (0+1) = 2 := by norm_num
    rw [hp] at h2
    have hq : qexpNeg (0+1) q = 1 := by simp [qexpNeg, h2]
    rw [hq, pow_one]
    exact ⟨h2, by linarith⟩
  | succ n ih =>
    intro q h0 h1 h2
    by_cases h : 1 ≤ q * 2
    · have hq : qexpNeg (n+1+1) q = 1 := by simp [qexpNeg, h]
      rw [hq, pow_one]
      exact ⟨h, by linarith⟩
    · push_neg at h
      have hq : qexpNeg (n+1+1) q = qexpNeg (n+1) (q*2) + 1 := by
        simp [qexpNeg, if_neg (not_le.mpr h)]
      rw [hq]
      have h0' : 0 < q * 2 := by linarith
      have h1' : q * 2 < 1 := h
      have h2' : 1 ≤ (q * 2) * 2 ^ (n+1) := by
        calc (1:ℚ) ≤ q * 2 ^ (n+1+1) := h2
        _ = (q * 2) * 2 ^ (n+1) := by ring
      obtain ⟨ha, hb⟩ := ih (q*2) h0' h1' h2'
      constructor
      · calc (1:ℚ) ≤ (q*2) * 2 ^ (qexpNeg (n+1) (q*2)) := ha
        _ = q * 2 ^ (qexpNeg (n+1) (q*2) + 1) := by ring
      · calc q * 2 ^ (qexpNeg (n+1) (q*2) + 1) = (q*2) * 2 ^ (qexpNeg (n+1) (q*2)) := by ring
        _ < 2 := hb

lemma qexp_unique (q : ℚ) (e : ℤ) (h1 : (2:ℚ) ^ e ≤ q) (h2 : q < 2 ^ (e+1))
    (he1 : -4100 ≤ e) (he2 : e ≤ 4100) : qexp q = e := by
  have h0 : (0:ℚ) < q := lt_of_lt_of_le (by positivity) h1
  by_cases hq1 : 1 ≤ q
  · -- positive exponent side
    have he0 : 0 ≤ e := by
      by_contra hneg
      push_neg at hneg
      have : e + 1 ≤ 0 := by omega
      have : q < 2 ^ (e+1) := h2
      have hle : (2:ℚ) ^ (e+1) ≤ 2 ^ (0:ℤ) := by
        apply zpow_le_zpow_right₀ (by norm_num) (by omega)
      simp only [zpow_zero] at hle
      linarith
    obtain ⟨n, rfl⟩ : ∃ n : ℕ, e = (n : ℤ) := ⟨e.toNat, by omega⟩
    have hfuel : q < 2 ^ (4200:ℕ) := by
      have : (n:ℤ) + 1 ≤ 4200 := by omega
      have hle : (2:ℚ) ^ ((n:ℤ)+1) ≤ 2 ^ (4200:ℤ) := by
        apply zpow_le_zpow_right₀ (by norm_num) this
      have : (2:ℚ) ^ ((4200:ℕ):ℤ) = 2 ^ (4200:ℕ) := zpow_natCast 2 4200
      calc q < 2 ^ ((n:ℤ)+1) := h2
      _ ≤ 2 ^ (4200:ℤ) := hle
      _ = 2 ^ (4200:ℕ) := this
    obtain ⟨ha, hb⟩ := qexpNat_spec 4200 q hq1 hfuel
    have h1' : (2:ℚ) ^ n ≤ q := by
      have := zpow_natCast (2:ℚ) n
      rw [← this]; exact h1
    have h2' : q < 2 ^ (n+1) := by
      have : (2:ℚ) ^ ((n:ℤ)+1) = 2 ^ (n+1) := by
        rw [← zpow_natCast (2:ℚ) (n+1)]; push_cast; ring_nf
      rw [← this]; exact h2
    have : qexpNat 4200 q = n := by
      by_contra hne
      rcases lt_or_gt_of_ne hne with hlt | hgt
      · have : (2:ℚ) ^ (qexpNat 4200 q + 1) ≤ 2 ^ n :=
          pow_le_pow_right₀ (by norm_num) (by omega)
        linarith
      · have : (2:ℚ) ^ (n + 1) ≤ 2 ^ (qexpNat 4200 q) :=
          pow_le_pow_right₀ (by norm_num) (by omega)
        linarith
    simp only [qexp, if_pos hq1, this]
  · -- negative exponent side
    push_neg at hq1
    have he0 : e < 0 := by
      by_contra hpos
      push_neg at hpos
      have hle : (2:ℚ) ^ (0:ℤ) ≤ 2 ^ e := zpow_le_zpow_right₀ (by norm_num) hpos
      simp only [zpow_zero] at hle
      linarith
    obtain ⟨k, hk⟩ : ∃ k : ℕ, e = -((k:ℤ)+1) := ⟨(-e-1).toNat, by omega⟩
    have hfuel : 1 ≤ q * 2 ^ (4199+1:ℕ) := by
      have hke : (k:ℤ) + 1 ≤ 4200 := by omega
      have h1' : (2:ℚ) ^ (-((k:ℤ)+1)) ≤ q := by rw [← hk]; exact h1
      have hmul : (1:ℚ) ≤ q * 2 ^ ((k:ℤ)+1) := by
        have hpow : (0:ℚ) < 2 ^ ((k:ℤ)+1) := by positivity
        rw [zpow_neg] at h1'
        rw [← div_le_iff hpow] at *
        · calc (1:ℚ)/2^((k:ℤ)+1) = (2 ^ ((k:ℤ)+1))⁻¹ := by rw [one_div]
          _ ≤ q := h1'
      have hle : (2:ℚ) ^ ((k:ℤ)+1) ≤ 2 ^ (4200:ℤ) :=
        zpow_le_zpow_right₀ (by norm_num) hke
      have h4200 : (2:ℚ) ^ (4200:ℤ) = 2 ^ (4199+1:ℕ) := by
        rw [← zpow_natCast (2:ℚ) (4199+1)]; norm_num
      calc (1:ℚ) ≤ q * 2 ^ ((k:ℤ)+1) := hmul
      _ ≤ q * 2 ^ (4200:ℤ) := by
          apply mul_le_mul_of_nonneg_left hle (le_of_lt h0)
      _ = q * 2 ^ (4199+1:ℕ) := by rw [h4200]
    obtain ⟨ha, hb⟩ := qexpNeg_spec 4199 q h0 hq1 hfuel
    have hkq : qexpNeg 4200 q = k + 1 := by
      -- uniqueness: 1 ≤ q * 2 ^ j < 2 determines j
      have h1' : (1:ℚ) ≤ q * 2 ^ (k+1) := by
        have : (2:ℚ) ^ (-((k:ℤ)+1)) ≤ q := by rw [← hk]; exact h1
        have hpow : (0:ℚ) < 2 ^ ((k:ℤ)+1) := by positivity
        rw [zpow_neg, inv_le_iff_one_le_mul₀ hpow] at this
        have hcast : (2:ℚ) ^ ((k:ℤ)+1) = 2 ^ (k+1) := by
          rw [← zpow_natCast (2:ℚ) (k+1)]; push_cast; ring_nf
        rw [hcast] at this
        linarith [this]
      have h2' : q * 2 ^ (k+1) < 2 := by
        have : q < 2 ^ (e+1) := h2
        rw [hk] at this
        have hcast : (2:ℚ) ^ (-((k:ℤ)+1)+1) = 2 / 2 ^ (k+1) := by
          rw [show -((k:ℤ)+1)+1 = -(k:ℤ) by ring, zpow_neg, zpow_natCast]
          rw [pow_succ]
          field_simp
        rw [hcast, lt_div_iff (by positivity)] at this
        linarith
      by_contra hne
      rcases lt_or_gt_of_ne hne with hlt | hgt
      · have hstep : (2:ℚ) ^ (qexpNeg 4200 q + 1) ≤ 2 ^ (k+1) :=
          pow_le_pow_right₀ (by norm_num) (by omega)
        have : q * 2 ^ (qexpNeg 4200 q + 1) ≤ q * 2 ^ (k+1) :=
          mul_le_mul_of_nonneg_left hstep (le_of_lt h0)
        have hq2 : q * 2 ^ (qexpNeg 4200 q + 1) = (q * 2 ^ (qexpNeg 4200 q)) * 2 := by ring
        nlinarith
      · have hstep : (2:ℚ) ^ (k + 1 + 1) ≤ 2 ^ (qexpNeg 4200 q) :=
          pow_le_pow_right₀ (by norm_num) (by omega)
        have : q * 2 ^ (k+1+1) ≤ q * 2 ^ (qexpNeg 4200 q) :=
          mul_le_mul_of_nonneg_left hstep (le_of_lt h0)
        have hq2 : q * 2 ^ (k + 1 + 1) = (q * 2 ^ (k+1)) * 2 := by ring
        nlinarith
    simp only [qexp, if_neg (not_le.mpr hq1), hkq, hk]
    push_cast
    ring

lemma rne_intCast (n : ℤ) : rne ((n:ℚ)) = n := by
  simp [rne, Int.floor_intCast]

/-- Unfolding of the rounding function on a positive rational whose
binary exponent is known. -/
lemma b64round_pos_eq (q : ℚ) (e : ℤ) (h0 : 0 < q)
    (h1 : (2:ℚ) ^ e ≤ q) (h2 : q < 2 ^ (e+1))
    (he1 : -4100 ≤ e) (he2 : e ≤ 4100) :
    b64round q = (rne (q * 2 ^ ((52:ℤ) - e)) : ℚ) * 2 ^ (e - 52) := by
  have hne : q ≠ 0 := ne_of_gt h0
  have habs : |q| = q := abs_of_pos h0
  simp only [b64round, if_neg hne, habs, qexp_unique q e h1 h2 he1 he2, if_pos h0]

/-- A positive rational that is an integer multiple of its unit in the last
place is left unchanged by rounding. -/
lemma b64round_fix (q : ℚ) (e : ℤ) (n : ℤ) (h0 : 0 < q)
    (h1 : (2:ℚ) ^ e ≤ q) (h2 : q < 2 ^ (e+1))
    (he1 : -4100 ≤ e) (he2 : e ≤ 4100)
    (hrep : q * 2 ^ ((52:ℤ) - e) = (n:ℚ)) :
    b64round q = q := by
  rw [b64round_pos_eq q e h0 h1 h2 he1 he2, hrep, rne_intCast]
  rw [← hrep]
  have : (2:ℚ) ^ ((52:ℤ) - e) * 2 ^ (e - 52) = 1 := by
    rw [← zpow_add₀ (by norm_num : (2:ℚ) ≠ 0)]
    norm_num
  calc q * 2 ^ ((52:ℤ) - e) * 2 ^ (e - 52) = q * (2 ^ ((52:ℤ) - e) * 2 ^ (e - 52)) := by ring
  _ = q := by rw [this, mul_one]

lemma b64round_zero : b64round 0 = 0 := by simp [b64round]

/-- Natural numbers below 2 ^ 53 are exactly representable in binary64. -/
lemma b64round_natCast (n : ℕ) (h1 : 1 ≤ n) (h2 : n < 2 ^ 53) :
    b64round (n : ℚ) = (n : ℚ) := by
  have hn0 : n ≠ 0 := by omega
  set e := Nat.log 2 n with he
  have hle : 2 ^ e ≤ n := Nat.pow_log_le_self 2 hn0
  have hlt : n < 2 ^ (e + 1) := Nat.lt_pow_succ_log_self (by norm_num) n
  have he52 : e ≤ 52 := by
    have := Nat.log_lt_of_lt_pow hn0 (h2 : n < 2 ^ 53)
    omega
  have h0 : (0:ℚ) < (n:ℚ) := by exact_mod_cast Nat.pos_of_ne_zero hn0
  apply b64round_fix (n:ℚ) (e:ℤ) ((n * 2 ^ (52 - e) : ℕ) : ℤ)
  · exact h0
  · rw [show ((e:ℤ)) = ((e:ℕ):ℤ) from rfl, zpow_natCast]
    exact_mod_cast hle
  · rw [show (e:ℤ) + 1 = ((e+1:ℕ):ℤ) by push_cast; ring, zpow_natCast]
    exact_mod_cast hlt
  · omega
  · omega
  · rw [show (52:ℤ) - (e:ℕ) = ((52 - e : ℕ) : ℤ) by omega, zpow_natCast]
    push_cast
    ring

end FloatLemmas

/-! ### Host date model

The helper calculateNextRecurringDate mutates a host Date object through
setDate, setMonth and setFullYear, which renormalize out-of-range fields
(day overflow rolls into the following month, month overflow into the
following year).  A date is modelled by its civil fields; month indices
are zero-based as in the host runtime.  The normalization below performs
the single day carry that the operations of this file can require
(they increase the day by at most seven or change month or year by one),
which matches the host renormalization on that input range. -/

/-- Proleptic Gregorian leap-year test, as the host calendar defines it. -/
def isLeap (y : ℤ) : Bool :=
  decide (y % 4 = 0 ∧ (y % 100 ≠ 0 ∨ y % 400 = 0))

/-- Length of zero-based month m of year y in the host calendar. -/
def daysInMonth (y m : ℤ) : ℤ :=
  if m = 1 then (if isLeap y then 29 else 28)
  else if m = 3 ∨ m = 5 ∨ m = 8 ∨ m = 10 then 30
  else 31

/-- A host date: civil year, zero-based month, one-based day of month. -/
structure JsDate where
  year : ℤ
  month : ℤ
  day : ℤ
deriving DecidableEq, Repr

/-- A date whose fields are in range for the host calendar. -/
def ValidDate (dt : JsDate) : Prop :=
  0 ≤ dt.month ∧ dt.month ≤ 11 ∧ 1 ≤ dt.day ∧ dt.day ≤ daysInMonth dt.year dt.month

instance (dt : JsDate) : Decidable (ValidDate dt) := by
  unfold ValidDate
  infer_instance

/-- Renormalization of a day-of-month that may exceed the month length by at
most one month worth of days: carry the excess into the following month. -/
def carryDay (y m d : ℤ) : JsDate :=
  if d ≤ daysInMonth y m then ⟨y, m, d⟩
  else if m = 11 then ⟨y + 1, 0, d - daysInMonth y m⟩
  else ⟨y, m + 1, d - daysInMonth y m⟩

/-- Host setDate: replace the day-of-month field and renormalize. -/
def setDate (dt : JsDate) (n : ℤ) : JsDate := carryDay dt.year dt.month n

/-- Host setMonth: replace the zero-based month field (renormalizing month
overflow into the year) and renormalize the day. -/
def setMonth (dt : JsDate) (n : ℤ) : JsDate :=
  carryDay (dt.year + n / 12) (n % 12) dt.day

/-- Host setFullYear: replace the year field and renormalize the day. -/
def setFullYear (dt : JsDate) (n : ℤ) : JsDate := carryDay n dt.month dt.day

/-- Embedding of calculateNextRecurringDate: advance a date by one
recurrence interval; unrecognized interval tags leave the date unchanged. -/
def calculateNextRecurringDate (dt : JsDate) (interval : String) : JsDate :=
  if interval = "DAILY" then setDate dt (dt.day + 1)
  else if interval = "WEEKLY" then setDate dt (dt.day + 7)
  else if interval = "MONTHLY" then setMonth dt (dt.month + 1)
  else if interval = "YEARLY" then setFullYear dt (dt.year + 1)
  else dt

/-! Day numbering, used as an independent measure of calendar distance. -/

/-- Days before zero-based month m in a common year (clamped outside 0..12). -/
def cumDays (m : ℤ) : ℤ :=
  if m ≤ 0 then 0 else if m = 1 then 31 else if m = 2 then 59 else if m = 3 then 90
  else if m = 4 then 120 else if m = 5 then 151 else if m = 6 then 181 else if m = 7 then 212
  else if m = 8 then 243 else if m = 9 then 273 else if m = 10 then 304 else if m = 11 then 334
  else 365

/-- Days before zero-based month m of a year with the given leap flag. -/
def daysBeforeMonth (leap : Bool) (m : ℤ) : ℤ :=
  cumDays m + (if 2 ≤ m then (if leap then 1 else 0) else 0)

/-- Leap years strictly before year y (up to a constant offset). -/
def leapsBefore (y : ℤ) : ℤ := (y-1)/4 - (y-1)/100 + (y-1)/400 + 1

/-- Ordinal of the first day of year y (up to a constant offset). -/
def yearStartDay (y : ℤ) : ℤ := 365 * y + leapsBefore y

/-- Ordinal day number of a date: a linear measure of calendar distance. -/
def dayNumber (dt : JsDate) : ℤ :=
  yearStartDay dt.year + daysBeforeMonth (isLeap dt.year) dt.month + (dt.day - 1)

section DateLemmas

lemma isLeap_iff (y : ℤ) :
    isLeap y = true ↔ (y % 4 = 0 ∧ (y % 100 ≠ 0 ∨ y % 400 = 0)) := by
  simp [isLeap]

lemma yearStartDay_succ (y : ℤ) :
    yearStartDay (y+1) = yearStartDay y + (if isLeap y then 366 else 365) := by
  by_cases h : isLeap y = true
  · rw [if_pos h]
    rw [isLeap_iff] at h
    simp only [yearStartDay, leapsBefore]
    omega
  · rw [if_neg h]
    have h' : ¬(y % 4 = 0 ∧ (y % 100 ≠ 0 ∨ y % 400 = 0)) := fun hc => h ((isLeap_iff y).mpr hc)
    simp only [yearStartDay, leapsBefore]
    omega

lemma daysInMonth_bounds (y m : ℤ) (h1 : 0 ≤ m) (h2 : m ≤ 11) :
    28 ≤ daysInMonth y m ∧ daysInMonth y m ≤ 31 := by
  interval_cases m <;> cases hl : isLeap y <;> simp [daysInMonth, hl] <;> norm_num

lemma daysBeforeMonth_step (y m : ℤ) (h1 : 0 ≤ m) (h2 : m ≤ 11) :
    daysBeforeMonth (isLeap y) (m+1) = daysBeforeMonth (isLeap y) m + daysInMonth y m := by
  interval_cases m <;> cases hl : isLeap y <;>
    simp [daysBeforeMonth, cumDays, daysInMonth, hl] <;> norm_num

lemma dayNumber_carryDay (y m d : ℤ) (h1 : 0 ≤ m) (h2 : m ≤ 11) :
    dayNumber (carryDay y m d) =
      yearStartDay y + daysBeforeMonth (isLeap y) m + (d - 1) := by
  unfold carryDay
  by_cases hle : d ≤ daysInMonth y m
  · rw [if_pos hle]
    rfl
  · rw [if_neg hle]
    by_cases hm : m = 11
    · rw [if_pos hm]
      subst hm
      have h365 : daysInMonth y 11 = 31 := by norm_num [daysInMonth]
      have hdb0 : ∀ l : Bool, daysBeforeMonth l 0 = 0 := by
        intro l; cases l <;> simp [daysBeforeMonth, cumDays]
      have hdb11 : daysBeforeMonth (isLeap y) 11 = 334 + (if isLeap y then 1 else 0) := by
        cases hl : isLeap y <;> simp [daysBeforeMonth, cumDays, hl]
      simp only [dayNumber, hdb0, h365, yearStartDay_succ y, hdb11]
      cases hl : isLeap y <;> simp [hl] <;> omega
    · rw [if_neg hm]
      simp only [dayNumber]
      rw [daysBeforeMonth_step y m h1 h2]
      ring

lemma carryDay_valid (y m d : ℤ) (h1 : 0 ≤ m) (h2 : m ≤ 11) (h3 : 1 ≤ d)
    (h4 : d ≤ daysInMonth y m + 28) : ValidDate (carryDay y m d) := by
  unfold carryDay
  by_cases hle : d ≤ daysInMonth y m
  · rw [if_pos hle]
    exact ⟨h1, h2, h3, hle⟩
  · push_neg at hle
    rw [if_neg (not_le.mpr hle)]
    by_cases hm : m = 11
    · rw [if_pos hm]
      subst hm
      have h31 : daysInMonth y 11 = 31 := by norm_num [daysInMonth]
      have h31' : daysInMonth (y+1) 0 = 31 := by norm_num [daysInMonth]
      refine ⟨by norm_num, by norm_num, ?_, ?_⟩
      · show (1:ℤ) ≤ d - daysInMonth y 11
        omega
      · show d - daysInMonth y 11 ≤ daysInMonth (y+1) 0
        omega
    · rw [if_neg hm]
      have hb := daysInMonth_bounds y (m+1) (by omega) (by omega)
      refine ⟨?_, ?_, ?_, ?_⟩
      · show (0:ℤ) ≤ m + 1
        omega
      · show m + 1 ≤ 11
        omega
      · show (1:ℤ) ≤ d - daysInMonth y m
        omega
      · show d - daysInMonth y m ≤ daysInMonth y (m+1)
        omega

end DateLemmas

/-! ### JavaScript values and host builtins

Parsed oracle JSON is a JavaScript object; a missing property reads as
undefined.  The code branches on truthiness and applies the Number and
parseFloat builtins, so those are modelled below (decimal numeral forms
without exponents; surrounding whitespace not modelled). -/

/-- A JavaScript value as read from a property of parsed JSON output. -/
inductive JsVal where
  | undef : JsVal
  | null : JsVal
  | nan : JsVal
  | num : ℚ → JsVal
  | str : String → JsVal
  | bool : Bool → JsVal
deriving DecidableEq, Repr

/-- JavaScript truthiness: undefined, null, NaN, zero, the empty string and
false are falsy, everything else is truthy. -/
def truthy : JsVal → Bool
  | .undef => false
  | .null => false
  | .nan => false
  | .num q => q != 0
  | .str s => s != ""
  | .bool b => b

/-- Models the toUpperCase method on strings (character-wise uppercasing). -/
def jsToUpper (s : String) : String := String.mk (s.data.map Char.toUpper)

/-- Numeric value of a list of decimal digit characters. -/
def digitsVal (l : List Char) : ℕ := l.foldl (fun a c => 10 * a + (c.toNat - 48)) 0

/-- Parse an optionally signed decimal numeral from the front of a character
list, returning its value and the unconsumed remainder; fails when no digit
is present. -/
def numCore (cs : List Char) : Option (ℚ × List Char) :=
  let sgn : ℚ × List Char :=
    match cs with
    | '-' :: t => (-1, t)
    | '+' :: t => (1, t)
    | _ => (1, cs)
  let ip := sgn.2.takeWhile Char.isDigit
  let cs2 := sgn.2.dropWhile Char.isDigit
  let fp : List Char × List Char :=
    match cs2 with
    | '.' :: t => (t.takeWhile Char.isDigit, t.dropWhile Char.isDigit)
    | _ => ([], cs2)
  if ip.isEmpty && fp.1.isEmpty then none
  else some (sgn.1 * ((digitsVal ip : ℚ) + (digitsVal fp.1 : ℚ) / 10 ^ fp.1.length), fp.2)

/-- Models the parseFloat builtin on a string: parse the longest numeric
front; no numeric front yields NaN. -/
def parseFloatStr (s : String) : JsNum :=
  match numCore s.data with
  | none => .nan
  | some (q, _) => .val q

/-- Models the parseFloat builtin on an arbitrary value (the argument is
coerced to a string first; number formatting round-trips finite values). -/
def parseFloatJs : JsVal → JsNum
  | .num q => .val q
  | .nan => .nan
  | .str s => parseFloatStr s
  | _ => .nan

/-- Models the Number builtin coercion: the whole string must be numeric,
the empty or blank string is zero, null is zero, booleans are 0 or 1,
undefined is NaN. -/
def jsNumberCoerce : JsVal → JsNum
  | .num q => .val q
  | .nan => .nan
  | .null => .val 0
  | .bool b => .val (if b then 1 else 0)
  | .undef => .nan
  | .str s =>
    if s.data.all (fun c => c = ' ') then .val 0
    else
      match numCore s.data with
      | some (q, []) => .val q
      | _ => .nan

/-- Models host parsing of an ISO calendar-date string (yyyy-mm-dd subset;
the month in the string is one-based, the month field zero-based). -/
def parseISODate (s : String) : JsDate :=
  match (s.splitOn "-").map String.toNat? with
  | [some y, some m, some d] => ⟨(y : ℤ), (m : ℤ) - 1, (d : ℤ)⟩
  | _ => ⟨1970, 0, 1⟩

/-- Models constructing a host Date from a parsed JSON value (ISO strings;
values outside the modelled subset collapse to the epoch). -/
def jsNewDate : JsVal → JsDate
  | .str s => parseISODate s
  | _ => ⟨1970, 0, 1⟩

/-! ### Persistent store, identity and admission control -/

/-- A user row: internal id and identity-provider subject id. -/
structure User where
  id : ℕ
  clerkUserId : String
deriving DecidableEq, Repr

/-- An account row; the balance is a stored decimal, carried here as the
exact value written by the last update. -/
structure Account where
  id : ℕ
  userId : ℕ
  balance : JsNum
  isDefault : Bool
deriving DecidableEq, Repr

/-- The payload of a createTransaction call. -/
structure TxData where
  accountId : ℕ
  type : String
  amount : JsNum
  category : JsVal
  description : JsVal
  date : JsDate
  isRecurring : Bool
  recurringInterval : Option String
deriving DecidableEq, Repr

/-- A transaction row. -/
structure TxRecord where
  id : ℕ
  accountId : ℕ
  userId : ℕ
  type : String
  amount : JsNum
  category : JsVal
  description : JsVal
  date : JsDate
  isRecurring : Bool
  recurringInterval : Option String
  nextRecurringDate : Option JsDate
deriving DecidableEq, Repr

/-- The relational store. -/
structure DB where
  users : List User
  accounts : List Account
  transactions : List TxRecord
deriving DecidableEq, Repr

/-- The admission-control decision for the request. -/
inductive Decision where
  | allow : Decision
  | denyRateLimit : ℕ → ℕ → Decision
  | denyBlocked : Decision
deriving DecidableEq, Repr

/-- The request context: the identity provider's subject id (absent when
unauthenticated) and the admission-control decision that the provider
would return for this request. -/
structure Ctx where
  authUserId : Option String
  decision : Decision
deriving DecidableEq, Repr

/-- A data access against the persistent store. -/
inductive DbEvent where
  | userLookup
  | accountLookup
  | txInsert
  | accountUpdate
deriving DecidableEq, Repr

/-- The uniform service result: success with the created row, or a failure
message. -/
inductive ActionResult where
  | ok : TxRecord → ActionResult
  | err : String → ActionResult
deriving DecidableEq, Repr

/-- Result of a boundary call: the uniform result, the resulting store
state, and the ordered data accesses performed. -/
structure CTResult where
  res : ActionResult
  db : DB
  events : List DbEvent
deriving DecidableEq, Repr

/-- Embedding of serializeAmount: convert the stored decimal amount back to
a host number. -/
def serializeAmount (t : TxRecord) : TxRecord := { t with amount := jsRound t.amount }

/-- Lookup of the caller's user row by identity-provider subject id. -/
def findUser (db : DB) (clerkId : String) : Option User :=
  db.users.find? (fun u => u.clerkUserId == clerkId)

/-- Lookup of an account by id and owning user id (the ownership filter of
line 43). -/
def findAccount (db : DB) (accountId userId : ℕ) : Option Account :=
  db.accounts.find? (fun a => a.id == accountId && a.userId == userId)

/-- Lookup of the caller's default account (line 146). -/
def findDefaultAccount (db : DB) (userId : ℕ) : Option Account :=
  db.accounts.find? (fun a => a.userId == userId && a.isDefault)

/-- Line 47: the signed balance change. -/
def balanceChange (d : TxData) : JsNum :=
  if d.type = "EXPENSE" then jsNegN d.amount else d.amount

/-- Line 48: the new absolute balance, computed in host float arithmetic
from the decimal balance converted by toNumber. -/
def newBalanceOf (account : Account) (d : TxData) : JsNum :=
  jsAddN (jsRound account.balance) (balanceChange d)

/-- The transaction row created at lines 51 to 60. -/
def mkTxRecord (db : DB) (uid : ℕ) (d : TxData) : TxRecord :=
  { id := db.transactions.length
    accountId := d.accountId
    userId := uid
    type := d.type
    amount := d.amount
    category := d.category
    description := d.description
    date := d.date
    isRecurring := d.isRecurring
    recurringInterval := d.recurringInterval
    nextRecurringDate :=
      match d.isRecurring, d.recurringInterval with
      | true, some ri => some (calculateNextRecurringDate d.date ri)
      | _, _ => none }

/-- The balance update of lines 62 to 65: write an absolute balance into
the account row with the given id. -/
def updateAccountBalance (accounts : List Account) (accountId : ℕ) (b : JsNum) :
    List Account :=
  accounts.map (fun a => if a.id = accountId then { a with balance := b } else a)

/-- The interactive store transaction of lines 50 to 68: insert the new
transaction row and write the new absolute balance, as one atomic unit. -/
def commitPhase (db : DB) (d : TxData) (uid : ℕ) (newBalance : JsNum) :
    TxRecord × DB :=
  let t := mkTxRecord db uid d
  (t, { db with
          transactions := db.transactions ++ [t]
          accounts := updateAccountBalance db.accounts d.accountId newBalance })

/-- Lines 42 to 48 in isolation: the account read and balance computation,
against the state as of the read. -/
def readPhase (db : DB) (uid : ℕ) (d : TxData) : Option JsNum :=
  (findAccount db d.accountId uid).map (fun a => newBalanceOf a d)

/-- Lines 50 to 68 in isolation: the atomic unit of work. -/
def writePhase (db : DB) (d : TxData) (uid : ℕ) (newBalance : JsNum) : DB :=
  (commitPhase db d uid newBalance).2

/-- The try-block of createTransaction (lines 20 to 73): authentication,
admission control, user and account lookup, balance computation, atomic
commit.  Returns the thrown error or the serialized created row, together
with the resulting store state and the ordered data accesses. -/
def createTransactionBody (ctx : Ctx) (d : TxData) (db : DB) :
    Except String TxRecord × DB × List DbEvent :=
  match ctx.authUserId with
  | none => (.error "Unauthorized", db, [])
  | some uid =>
    match ctx.decision with
    | .denyRateLimit _ _ => (.error "Too many requests. Please try again later.", db, [])
    | .denyBlocked => (.error "Request blocked", db, [])
    | .allow =>
      match findUser db uid with
      | none => (.error "User not found", db, [.userLookup])
      | some user =>
        match findAccount db d.accountId user.id with
        | none => (.error "Account not found", db, [.userLookup, .accountLookup])
        | some account =>
          let td := commitPhase db d user.id (newBalanceOf account d)
          (.ok (serializeAmount td.1), td.2,
            [.userLookup, .accountLookup, .txInsert, .accountUpdate])

/-- Embedding of createTransaction: the try-block wrapped by the catch of
lines 74 to 76, which turns any thrown error into a uniform failure
result. -/
def createTransaction (ctx : Ctx) (d : TxData) (db : DB) : CTResult :=
  match createTransactionBody ctx d db with
  | (.ok t, db', ev) => ⟨.ok t, db', ev⟩
  | (.error m, db', ev) => ⟨.err m, db', ev⟩

/-- Balance of the account row with the given id. -/
def getAccountBalance (db : DB) (accountId : ℕ) : Option JsNum :=
  (db.accounts.find? (fun a => a.id == accountId)).map (fun a => a.balance)

/-! ### The prompt extraction service -/

/-- The oracle response for a prompt, as a parsed JSON object. -/
structure PromptExtraction where
  type : JsVal
  amount : JsVal
  date : JsVal
  description : JsVal
  category : JsVal
deriving DecidableEq, Repr

/-- Outcome of an oracle call followed by fence stripping and JSON parsing:
the network call itself failed, or it produced text that parses (some) or
does not parse (none). -/
inductive OracleOutcome (α : Type) where
  | apiError : String → OracleOutcome α
  | output : Option α → OracleOutcome α
deriving DecidableEq, Repr

/-- The incomplete-extraction validation of lines 185 to 187: a field fails
the check exactly when it is falsy (absent, null, NaN, zero, the empty
string, or false). -/
def incompleteCheck (d : PromptExtraction) : Bool :=
  !truthy d.amount || !truthy d.type || !truthy d.category

/-- Lines 189 to 197: construction of the transaction payload from the
extracted fields.  Calling toUpperCase on a non-string value throws. -/
def buildTxData (accountId : ℕ) (d : PromptExtraction) (now : JsDate) :
    Except String TxData :=
  match d.type with
  | .str ts =>
    .ok { accountId := accountId
          type := jsToUpper ts
          amount := jsNumberCoerce d.amount
          category := d.category
          description := if truthy d.description then d.description else d.category
          date := if truthy d.date then jsNewDate d.date else now
          isRecurring := false
          recurringInterval := none }
  | _ => .error "data.type.toUpperCase is not a function"

/-- The try-block of createTransactionFromPrompt (lines 139 to 199):
authentication, user and default-account lookup, oracle call, parse,
validation, payload construction, delegation to createTransaction.  The
second component lists the data accesses performed by this function
itself, for use by the catch. -/
def createTransactionFromPromptBody (ctx : Ctx)
    (oracle : OracleOutcome PromptExtraction) (now : JsDate) (db : DB) :
    Except String CTResult × List DbEvent :=
  match ctx.authUserId with
  | none => (.error "Unauthorized", [])
  | some uid =>
    match findUser db uid with
    | none => (.error "User not found", [.userLookup])
    | some user =>
      match findDefaultAccount db user.id with
      | none => (.error "No default account found", [.userLookup, .accountLookup])
      | some defaultAccount =>
        match oracle with
        | .apiError m => (.error m, [.userLookup, .accountLookup])
        | .output none =>
          (.error "Could not parse transaction details from prompt",
            [.userLookup, .accountLookup])
        | .output (some d) =>
          if incompleteCheck d then
            (.error "Incomplete transaction details extracted",
              [.userLookup, .accountLookup])
          else
            match buildTxData defaultAccount.id d now with
            | .error m => (.error m, [.userLookup, .accountLookup])
            | .ok td =>
              let r := createTransaction ctx td db
              (.ok ⟨r.res, r.db, [.userLookup, .accountLookup] ++ r.events⟩,
                [.userLookup, .accountLookup])

/-- Embedding of createTransactionFromPrompt: the try-block wrapped by the
catch of lines 200 to 202. -/
def createTransactionFromPrompt (ctx : Ctx)
    (oracle : OracleOutcome PromptExtraction) (now : JsDate) (db : DB) : CTResult :=
  match createTransactionFromPromptBody ctx oracle now db with
  | (.ok r, _) => r
  | (.error m, ev) => ⟨.err m, db, ev⟩

/-! ### The receipt extraction service -/

/-- The oracle response for a receipt, as a parsed JSON object. -/
structure ReceiptExtraction where
  amount : JsVal
  date : JsVal
  description : JsVal
  category : JsVal
  merchantName : JsVal
deriving DecidableEq, Repr

/-- The structured guess returned by scanReceipt. -/
structure ReceiptFields where
  amount : JsNum
  date : JsDate
  description : JsVal
  category : JsVal
  merchantName : JsVal
deriving DecidableEq, Repr

/-- Outcome of the receipt pipeline up to JSON parsing: the oracle call
failed, the fence-stripped response text was not valid JSON, or a parsed
JSON object. -/
inductive ScanOutcome where
  | oracleFailed : String → ScanOutcome
  | notJson : ScanOutcome
  | parsed : ReceiptExtraction → ScanOutcome
deriving DecidableEq, Repr

/-- The try-block of scanReceipt (lines 81 to 130): on a parsed object,
coerce the amount with parseFloat and wrap the remaining fields. -/
def scanReceiptBody : ScanOutcome → Except String ReceiptFields
  | .oracleFailed m => .error m
  | .notJson => .error "Unexpected token in JSON"
  | .parsed r =>
    .ok { amount := parseFloatJs r.amount
          date := jsNewDate r.date
          description := r.description
          category := r.category
          merchantName := r.merchantName }

/-- Embedding of scanReceipt: any failure in the body is re-raised to the
caller as the fixed scan failure (lines 131 to 134). -/
def scanReceipt (o : ScanOutcome) : Except String ReceiptFields :=
  match scanReceiptBody o with
  | .ok f => .ok f
  | .error _ => .error "Failed to scan receipt"

/-! ### Concrete fixtures used by witnesses and counterexamples -/

/-- A request context with an authenticated, admitted caller. -/
def sampleCtx : Ctx := ⟨some "u", .allow⟩

/-- A store with one user and that user's default account. -/
def sampleDb : DB := ⟨[⟨1, "u"⟩], [⟨1, 1, .val 0, true⟩], []⟩

/-- A plain income payload against account 1. -/
def sampleTx : TxData := ⟨1, "INCOME", .val 10, .str "salary", .str "pay", ⟨2024, 0, 15⟩, false, none⟩

/-- A store in which account 1 belongs to user 2, while the caller is user 1. -/
def foreignDb : DB := ⟨[⟨1, "u"⟩], [⟨1, 2, .val 0, true⟩], []⟩

/-- Oracle output whose three required fields are all present, with amount
zero. -/
def promptZeroAmount : PromptExtraction := ⟨.str "EXPENSE", .num 0, .undef, .undef, .str "food"⟩

/-- Oracle output with an empty-string description field. -/
def promptEmptyDescription : PromptExtraction :=
  ⟨.str "EXPENSE", .num 500, .undef, .str "", .str "food"⟩

/-- Oracle output with all three required fields truthy. -/
def promptSalary : PromptExtraction := ⟨.str "income", .num 45000, .undef, .undef, .str "salary"⟩

/-! ### Claim theorems -/

/-- C2: in every execution of createTransaction, the transaction-row insert
and the balance update commit or fail together: either the call fails and
the store is exactly the pre-state, or it succeeds and the post-state
carries exactly one appended transaction row together with the balance
update of the target account - no partial state is reachable. -/
theorem createTransaction_atomic (ctx : Ctx) (d : TxData) (db : DB) :
    ((∃ m, (createTransaction ctx d db).res = .err m) ∧ (createTransaction ctx d db).db = db)
    ∨ (∃ t newBalance,
        (createTransaction ctx d db).res = .ok (serializeAmount t)
        ∧ (createTransaction ctx d db).db.transactions = db.transactions ++ [t]
        ∧ (createTransaction ctx d db).db.accounts
            = updateAccountBalance db.accounts d.accountId newBalance
        ∧ (createTransaction ctx d db).db.users = db.users) := by
  unfold createTransaction createTransactionBody
  rcases ctx.authUserId with _ | uid <;> dsimp only
  · exact Or.inl ⟨⟨_, rfl⟩, rfl⟩
  · rcases ctx.decision with _ | ⟨r, s⟩ | _ <;> dsimp only
    · rcases hU : findUser db uid with _ | user <;> dsimp only
      · exact Or.inl ⟨⟨_, rfl⟩, rfl⟩
      · rcases hAcc : findAccount db d.accountId user.id with _ | account <;> dsimp only
        · exact Or.inl ⟨⟨_, rfl⟩, rfl⟩
        · exact Or.inr ⟨mkTxRecord db user.id d, newBalanceOf account d, rfl, rfl, rfl, rfl⟩
    · exact Or.inl ⟨⟨_, rfl⟩, rfl⟩
    · exact Or.inl ⟨⟨_, rfl⟩, rfl⟩

/-- C3: when the admission-control decision for an authenticated caller is
a denial, createTransaction fails with the rate-limit or request-blocked
error, the store is unchanged, and no data access at all is performed -
in particular no user or account lookup, no insert and no balance
update. -/
theorem createTransaction_denied_no_access (ctx : Ctx) (d : TxData) (db : DB) (uid : String)
    (hauth : ctx.authUserId = some uid) (hdeny : ctx.decision ≠ .allow) :
    ((createTransaction ctx d db).res = .err "Too many requests. Please try again later."
      ∨ (createTransaction ctx d db).res = .err "Request blocked")
    ∧ (createTransaction ctx d db).db = db
    ∧ (createTransaction ctx d db).events = [] := by
  unfold createTransaction createTransactionBody
  rw [hauth]
  rcases hd : ctx.decision with _ | ⟨r, s⟩ | _
  · exact absurd hd hdeny
  · exact ⟨Or.inl rfl, rfl, rfl⟩
  · exact ⟨Or.inr rfl, rfl, rfl⟩

/-- Witness for C3 at a concrete rate-limited request. -/
theorem createTransaction_denied_no_access_witness :
    ((createTransaction ⟨some "u", .denyRateLimit 0 30⟩ sampleTx sampleDb).res
        = .err "Too many requests. Please try again later."
      ∨ (createTransaction ⟨some "u", .denyRateLimit 0 30⟩ sampleTx sampleDb).res
        = .err "Request blocked")
    ∧ (createTransaction ⟨some "u", .denyRateLimit 0 30⟩ sampleTx sampleDb).db = sampleDb
    ∧ (createTransaction ⟨some "u", .denyRateLimit 0 30⟩ sampleTx sampleDb).events = [] :=
  createTransaction_denied_no_access _ _ _ "u" rfl (by decide)

/-- C4: when the caller's user record does not exist, or no account with
the requested id belongs to the caller (the account is missing or owned
by someone else), createTransaction fails with the corresponding
not-found error and leaves the store unchanged. -/
theorem createTransaction_notfound_no_side_effects (ctx : Ctx) (d : TxData) (db : DB)
    (uid : String) (hauth : ctx.authUserId = some uid) (hallow : ctx.decision = .allow)
    (h : findUser db uid = none
      ∨ ∃ user, findUser db uid = some user
          ∧ ∀ a ∈ db.accounts, ¬(a.id = d.accountId ∧ a.userId = user.id)) :
    ((createTransaction ctx d db).res = .err "User not found"
      ∨ (createTransaction ctx d db).res = .err "Account not found")
    ∧ (createTransaction ctx d db).db = db := by
  unfold createTransaction createTransactionBody
  rw [hauth, hallow]
  dsimp only
  rcases h with h | ⟨user, hu, hacc⟩
  · rw [h]
    exact ⟨Or.inl rfl, rfl⟩
  · rw [hu]
    dsimp only
    have hnone : findAccount db d.accountId user.id = none := by
      unfold findAccount
      rw [List.find?_eq_none]
      intro a ha
      simp only [Bool.and_eq_true, beq_iff_eq]
      exact fun hc => hacc a ha ⟨hc.1, hc.2⟩
    rw [hnone]
    exact ⟨Or.inr rfl, rfl⟩

/-- Witness for C4: the caller owns no account with the requested id
(account 1 belongs to user 2). -/
theorem createTransaction_notfound_no_side_effects_witness :
    ((createTransaction sampleCtx sampleTx foreignDb).res = .err "User not found"
      ∨ (createTransaction sampleCtx sampleTx foreignDb).res = .err "Account not found")
    ∧ (createTransaction sampleCtx sampleTx foreignDb).db = foreignDb :=
  createTransaction_notfound_no_side_effects sampleCtx sampleTx foreignDb "u" rfl rfl
    (Or.inr ⟨⟨1, "u"⟩, rfl, by decide⟩)

/-- C9: every failure thrown inside the try-block of createTransaction or
of createTransactionFromPrompt is caught at the service boundary and
returned as the uniform failure result carrying the thrown message, so
neither boundary function raises; scanReceipt instead re-raises every
body failure to its caller as the fixed scan failure, and succeeds
otherwise. -/
theorem boundary_propagation :
    (∀ (ctx : Ctx) (d : TxData) (db : DB) (m : String) (db' : DB) (ev : List DbEvent),
      createTransactionBody ctx d db = (.error m, db', ev)
      → createTransaction ctx d db = ⟨.err m, db', ev⟩)
    ∧ (∀ (ctx : Ctx) (oracle : OracleOutcome PromptExtraction) (now : JsDate) (db : DB)
        (m : String) (ev : List DbEvent),
      createTransactionFromPromptBody ctx oracle now db = (.error m, ev)
      → createTransactionFromPrompt ctx oracle now db = ⟨.err m, db, ev⟩)
    ∧ (∀ (o : ScanOutcome) (m : String), scanReceiptBody o = .error m
      → scanReceipt o = .error "Failed to scan receipt")
    ∧ (∀ o : ScanOutcome, (∃ f, scanReceipt o = .ok f)
      ∨ scanReceipt o = .error "Failed to scan receipt") := by
  refine ⟨?_, ?_, ?_, ?_⟩
  · intro ctx d db m db' ev h
    unfold createTransaction
    rw [h]
  · intro ctx oracle now db m ev h
    unfold createTransactionFromPrompt
    rw [h]
  · intro o m h
    unfold scanReceipt
    rw [h]
  · intro o
    unfold scanReceipt
    rcases hb : scanReceiptBody o with m | f
    · exact Or.inr rfl
    · exact Or.inl ⟨f, rfl⟩

/-- Witness for C9: an unauthenticated createTransaction call, an
unauthenticated prompt call, and a failed oracle call for a receipt. -/
theorem boundary_propagation_witness :
    createTransaction ⟨none, .allow⟩ sampleTx sampleDb = ⟨.err "Unauthorized", sampleDb, []⟩
    ∧ createTransactionFromPrompt ⟨none, .allow⟩ (.output none) ⟨2024, 0, 1⟩ sampleDb
        = ⟨.err "Unauthorized", sampleDb, []⟩
    ∧ scanReceipt (.oracleFailed "network error") = .error "Failed to scan receipt" :=
  ⟨boundary_propagation.1 _ _ _ _ _ _ rfl,
   boundary_propagation.2.1 _ _ _ _ _ _ rfl,
   boundary_propagation.2.2.1 _ _ rfl⟩

/-- C10: scanReceipt fails, with the fixed scan-failure error, exactly on
the outcomes in which the oracle call failed or its text did not parse as
JSON; on every parsed object it succeeds and returns the fields with the
amount coerced by parseFloat, so no failure is silently converted into
partial fields; numeric coercion of non-numeric text yields NaN. -/
theorem scanReceipt_spec :
    (∀ m, scanReceipt (.oracleFailed m) = .error "Failed to scan receipt")
    ∧ scanReceipt .notJson = .error "Failed to scan receipt"
    ∧ (∀ r : ReceiptExtraction, scanReceipt (.parsed r)
        = .ok ⟨parseFloatJs r.amount, jsNewDate r.date, r.description, r.category,
            r.merchantName⟩)
    ∧ parseFloatJs (.str "not a number") = .nan
    ∧ parseFloatJs .undef = .nan := by
  exact ⟨fun m => rfl, rfl, fun r => rfl, rfl, rfl⟩

/-- C6: for every valid start date, the date helper advances by exactly one
period: one calendar day for DAILY and seven for WEEKLY (measured on the
day-number line, with the result again a valid date); for MONTHLY it
increments the calendar month keeping the day-of-month, rolling an
overflowing day into the following month (the host month-overflow rule),
and rolls December into January of the next year; for YEARLY it increments
the year keeping month and day, again rolling an overflowing day (a leap
day before a common year) into the following month; every unrecognized
interval tag returns the date unchanged. -/
theorem calculateNextRecurringDate_spec (dt : JsDate) (hv : ValidDate dt) :
    (dayNumber (calculateNextRecurringDate dt "DAILY") = dayNumber dt + 1
      ∧ ValidDate (calculateNextRecurringDate dt "DAILY"))
    ∧ (dayNumber (calculateNextRecurringDate dt "WEEKLY") = dayNumber dt + 7
      ∧ ValidDate (calculateNextRecurringDate dt "WEEKLY"))
    ∧ (dt.month ≤ 10 →
        calculateNextRecurringDate dt "MONTHLY" =
          (if dt.day ≤ daysInMonth dt.year (dt.month + 1)
            then ⟨dt.year, dt.month + 1, dt.day⟩
            else ⟨dt.year, dt.month + 2, dt.day - daysInMonth dt.year (dt.month + 1)⟩))
    ∧ (dt.month = 11 →
        calculateNextRecurringDate dt "MONTHLY" = ⟨dt.year + 1, 0, dt.day⟩)
    ∧ (calculateNextRecurringDate dt "YEARLY" =
        (if dt.day ≤ daysInMonth (dt.year + 1) dt.month
          then ⟨dt.year + 1, dt.month, dt.day⟩
          else ⟨dt.year + 1, dt.month + 1, dt.day - daysInMonth (dt.year + 1) dt.month⟩))
    ∧ (∀ s : String, s ≠ "DAILY" → s ≠ "WEEKLY" → s ≠ "MONTHLY" → s ≠ "YEARLY" →
        calculateNextRecurringDate dt s = dt) := by
  obtain ⟨hm0, hm11, hd1, hdm⟩ := hv
  refine ⟨⟨?_, ?_⟩, ⟨?_, ?_⟩, ?_, ?_, ?_, ?_⟩
  · have e : calculateNextRecurringDate dt "DAILY" = carryDay dt.year dt.month (dt.day + 1) := rfl
    rw [e, dayNumber_carryDay dt.year dt.month (dt.day + 1) hm0 hm11]
    simp only [dayNumber]
    ring
  · have e : calculateNextRecurringDate dt "DAILY" = carryDay dt.year dt.month (dt.day + 1) := rfl
    rw [e]
    exact carryDay_valid dt.year dt.month (dt.day + 1) hm0 hm11 (by omega) (by omega)
  · have e : calculateNextRecurringDate dt "WEEKLY" = carryDay dt.year dt.month (dt.day + 7) := rfl
    rw [e, dayNumber_carryDay dt.year dt.month (dt.day + 7) hm0 hm11]
    simp only [dayNumber]
    ring
  · have e : calculateNextRecurringDate dt "WEEKLY" = carryDay dt.year dt.month (dt.day + 7) := rfl
    rw [e]
    exact carryDay_valid dt.year dt.month (dt.day + 7) hm0 hm11 (by omega) (by omega)
  · intro hle
    have e : calculateNextRecurringDate dt "MONTHLY"
        = carryDay (dt.year + (dt.month + 1) / 12) ((dt.month + 1) % 12) dt.day := rfl
    have e1 : dt.year + (dt.month + 1) / 12 = dt.year := by omega
    have e2 : (dt.month + 1) % 12 = dt.month + 1 := by omega
    rw [e, e1, e2]
    unfold carryDay
    by_cases hfit : dt.day ≤ daysInMonth dt.year (dt.month + 1)
    · rw [if_pos hfit, if_pos hfit]
    · rw [if_neg hfit, if_neg hfit]
      have hne : dt.month + 1 ≠ 11 := by
        intro hc
        have h10 : dt.month = 10 := by omega
        have d30 : daysInMonth dt.year dt.month = 30 := by rw [h10]; norm_num [daysInMonth]
        have d31 : daysInMonth dt.year (dt.month + 1) = 31 := by
          rw [h10]
          norm_num [daysInMonth]
        omega
      rw [if_neg hne]
      have hmm : dt.month + 1 + 1 = dt.month + 2 := by ring
      rw [hmm]
  · intro h11
    have e : calculateNextRecurringDate dt "MONTHLY"
        = carryDay (dt.year + (dt.month + 1) / 12) ((dt.month + 1) % 12) dt.day := rfl
    have d31 : daysInMonth dt.year 11 = 31 := by norm_num [daysInMonth]
    have d31' : daysInMonth (dt.year + 1) 0 = 31 := by norm_num [daysInMonth]
    have hdm' : dt.day ≤ 31 := by
      rw [h11] at hdm
      rw [d31] at hdm
      exact hdm
    rw [e, h11]
    norm_num
    unfold carryDay
    rw [if_pos (by rw [d31']; exact hdm')]
  · have e : calculateNextRecurringDate dt "YEARLY" = carryDay (dt.year + 1) dt.month dt.day := rfl
    rw [e]
    unfold carryDay
    by_cases hfit : dt.day ≤ daysInMonth (dt.year + 1) dt.month
    · rw [if_pos hfit, if_pos hfit]
    · rw [if_neg hfit, if_neg hfit]
      have hne : dt.month ≠ 11 := by
        intro hc
        have ha : daysInMonth (dt.year + 1) dt.month = 31 := by rw [hc]; norm_num [daysInMonth]
        have hb : daysInMonth dt.year dt.month = 31 := by rw [hc]; norm_num [daysInMonth]
        omega
      rw [if_neg hne]
  · intro s h1 h2 h3 h4
    unfold calculateNextRecurringDate
    rw [if_neg h1, if_neg h2, if_neg h3, if_neg h4]

/-- The last day of January 2024, a month whose successor is shorter. -/
def janEnd : JsDate := ⟨2024, 0, 31⟩

/-- Witness for C6 at January 31, 2024. -/
theorem calculateNextRecurringDate_spec_witness :
    (dayNumber (calculateNextRecurringDate janEnd "DAILY") = dayNumber janEnd + 1
      ∧ ValidDate (calculateNextRecurringDate janEnd "DAILY"))
    ∧ (dayNumber (calculateNextRecurringDate janEnd "WEEKLY") = dayNumber janEnd + 7
      ∧ ValidDate (calculateNextRecurringDate janEnd "WEEKLY"))
    ∧ (janEnd.month ≤ 10 →
        calculateNextRecurringDate janEnd "MONTHLY" =
          (if janEnd.day ≤ daysInMonth janEnd.year (janEnd.month + 1)
            then ⟨janEnd.year, janEnd.month + 1, janEnd.day⟩
            else ⟨janEnd.year, janEnd.month + 2, janEnd.day - daysInMonth janEnd.year (janEnd.month + 1)⟩))
    ∧ (janEnd.month = 11 →
        calculateNextRecurringDate janEnd "MONTHLY" = ⟨janEnd.year + 1, 0, janEnd.day⟩)
    ∧ (calculateNextRecurringDate janEnd "YEARLY" =
        (if janEnd.day ≤ daysInMonth (janEnd.year + 1) janEnd.month
          then ⟨janEnd.year + 1, janEnd.month, janEnd.day⟩
          else ⟨janEnd.year + 1, janEnd.month + 1, janEnd.day - daysInMonth (janEnd.year + 1) janEnd.month⟩))
    ∧ (∀ s : String, s ≠ "DAILY" → s ≠ "WEEKLY" → s ≠ "MONTHLY" → s ≠ "YEARLY" →
        calculateNextRecurringDate janEnd s = janEnd) :=
  calculateNextRecurringDate_spec janEnd (by decide)

/-- Every failure message of createTransaction is one of its five fixed
error strings. -/
lemma createTransaction_err_msgs (ctx : Ctx) (d : TxData) (db : DB) (m : String)
    (h : (createTransaction ctx d db).res = .err m) :
    m = "Unauthorized" ∨ m = "Too many requests. Please try again later."
    ∨ m = "Request blocked" ∨ m = "User not found" ∨ m = "Account not found" := by
  unfold createTransaction createTransactionBody at h
  rcases hA : ctx.authUserId with _ | uid <;> rw [hA] at h <;> dsimp only at h
  · injection h with h'
    exact Or.inl h'.symm
  · rcases hD : ctx.decision with _ | ⟨r, s⟩ | _ <;> rw [hD] at h <;> dsimp only at h
    · rcases hU : findUser db uid with _ | user <;> rw [hU] at h <;> dsimp only at h
      · injection h with h'
        exact Or.inr (Or.inr (Or.inr (Or.inl h'.symm)))
      · rcases hAcc : findAccount db d.accountId user.id with _ | account <;>
          rw [hAcc] at h <;> dsimp only at h
        · injection h with h'
          exact Or.inr (Or.inr (Or.inr (Or.inr h'.symm)))
        · exact absurd h (by simp)
    · injection h with h'
      exact Or.inr (Or.inl h'.symm)
    · injection h with h'
      exact Or.inr (Or.inr (Or.inl h'.symm))

/-- When authentication, the user lookup, the default-account lookup, the
parse and the validation all pass and the payload builds, the prompt
service returns exactly the delegated createTransaction outcome. -/
lemma fromPrompt_delegates (ctx : Ctx) (uid : String) (user : User)
    (defaultAccount : Account) (d : PromptExtraction) (now : JsDate) (db : DB)
    (hauth : ctx.authUserId = some uid)
    (hu : findUser db uid = some user)
    (hda : findDefaultAccount db user.id = some defaultAccount)
    (hic : incompleteCheck d = false)
    (td : TxData) (hb : buildTxData defaultAccount.id d now = .ok td) :
    createTransactionFromPrompt ctx (.output (some d)) now db
      = ⟨(createTransaction ctx td db).res, (createTransaction ctx td db).db,
          [.userLookup, .accountLookup] ++ (createTransaction ctx td db).events⟩ := by
  unfold createTransactionFromPrompt createTransactionFromPromptBody
  rw [hauth]
  dsimp only
  rw [hu]
  dsimp only
  rw [hda]
  dsimp only
  rw [if_neg (by simp [hic])]
  rw [hb]

/-- C7 counterexample: an oracle output in which amount, type and category
are all present (amount is the number zero) still fails validation with
the incomplete-extraction error, so presence of the three fields is not
equivalent to passing the check. -/
theorem promptValidation_counterexample :
    promptZeroAmount.amount ≠ JsVal.undef
    ∧ promptZeroAmount.type ≠ JsVal.undef
    ∧ promptZeroAmount.category ≠ JsVal.undef
    ∧ (createTransactionFromPrompt sampleCtx (.output (some promptZeroAmount)) ⟨2024, 0, 1⟩
        sampleDb).res = .err "Incomplete transaction details extracted" :=
  ⟨by decide, by decide, by decide, rfl⟩

/-- C7 amended: after a successful parse (with the caller authenticated,
the user found, a default account found), the flow fails with the
incomplete-extraction error if and only if at least one of amount, type,
category is falsy (absent, null, NaN, zero, empty string or false); when
all three are truthy and the extracted type is a string, validation
passes and the flow proceeds to transaction creation. -/
theorem promptValidation_iff_falsy (ctx : Ctx) (uid : String) (user : User)
    (defaultAccount : Account) (d : PromptExtraction) (now : JsDate) (db : DB)
    (hauth : ctx.authUserId = some uid)
    (hu : findUser db uid = some user)
    (hda : findDefaultAccount db user.id = some defaultAccount) :
    ((createTransactionFromPrompt ctx (.output (some d)) now db).res
        = .err "Incomplete transaction details extracted"
      ↔ (truthy d.amount = false ∨ truthy d.type = false ∨ truthy d.category = false))
    ∧ (incompleteCheck d = false → ∀ ts, d.type = .str ts →
        ∃ td, buildTxData defaultAccount.id d now = .ok td
          ∧ createTransactionFromPrompt ctx (.output (some d)) now db
              = ⟨(createTransaction ctx td db).res, (createTransaction ctx td db).db,
                  [.userLookup, .accountLookup] ++ (createTransaction ctx td db).events⟩) := by
  have hic_iff : incompleteCheck d = true
      ↔ (truthy d.amount = false ∨ truthy d.type = false ∨ truthy d.category = false) := by
    simp only [incompleteCheck, Bool.or_eq_true, Bool.not_eq_true']
    tauto
  constructor
  · by_cases hic : incompleteCheck d = true
    · have hres : (createTransactionFromPrompt ctx (.output (some d)) now db).res
          = .err "Incomplete transaction details extracted" := by
        unfold createTransactionFromPrompt createTransactionFromPromptBody
        rw [hauth]
        dsimp only
        rw [hu]
        dsimp only
        rw [hda]
        dsimp only
        rw [if_pos hic]
      rw [hres]
      exact ⟨fun _ => hic_iff.mp hic, fun _ => rfl⟩
    · have hic' : incompleteCheck d = false := by
        revert hic
        cases incompleteCheck d <;> simp
      have hRHS : ¬(truthy d.amount = false ∨ truthy d.type = false
          ∨ truthy d.category = false) := fun hr => hic (hic_iff.mpr hr)
      rcases hty : d.type with _ | _ | _ | q | ts | b
      · refine absurd (Or.inr (Or.inl ?_)) hRHS
        rw [hty]
        rfl
      · refine absurd (Or.inr (Or.inl ?_)) hRHS
        rw [hty]
        rfl
      · refine absurd (Or.inr (Or.inl ?_)) hRHS
        rw [hty]
        rfl
      · rw [hty] at hRHS
        have hres : (createTransactionFromPrompt ctx (.output (some d)) now db).res
            = .err "data.type.toUpperCase is not a function" := by
          unfold createTransactionFromPrompt createTransactionFromPromptBody
          rw [hauth]
          dsimp only
          rw [hu]
          dsimp only
          rw [hda]
          dsimp only
          rw [if_neg (by simp [hic'])]
          unfold buildTxData
          rw [hty]
        rw [hres]
        constructor
        · intro hcontra
          injection hcontra with h'
          exact absurd h' (by decide)
        · intro hr
          exact absurd hr hRHS
      · rw [hty] at hRHS
        obtain ⟨td, hb⟩ : ∃ td, buildTxData defaultAccount.id d now = .ok td := by
          unfold buildTxData
          rw [hty]
          exact ⟨_, rfl⟩
        rw [fromPrompt_delegates ctx uid user defaultAccount d now db hauth hu hda hic' td hb]
        dsimp only
        constructor
        · intro hres
          rcases createTransaction_err_msgs ctx td db _ hres with h | h | h | h | h <;>
            exact absurd h (by decide)
        · intro hr
          exact absurd hr hRHS
      · rw [hty] at hRHS
        have hres : (createTransactionFromPrompt ctx (.output (some d)) now db).res
            = .err "data.type.toUpperCase is not a function" := by
          unfold createTransactionFromPrompt createTransactionFromPromptBody
          rw [hauth]
          dsimp only
          rw [hu]
          dsimp only
          rw [hda]
          dsimp only
          rw [if_neg (by simp [hic'])]
          unfold buildTxData
          rw [hty]
        rw [hres]
        constructor
        · intro hcontra
          injection hcontra with h'
          exact absurd h' (by decide)
        · intro hr
          exact absurd hr hRHS
  · intro hic ts hty
    obtain ⟨td, hb⟩ : ∃ td, buildTxData defaultAccount.id d now = .ok td := by
      unfold buildTxData
      rw [hty]
      exact ⟨_, rfl⟩
    exact ⟨td, hb, fromPrompt_delegates ctx uid user defaultAccount d now db hauth hu hda hic td hb⟩

/-- Witness for the amended C7 at a concrete all-truthy extraction. -/
theorem promptValidation_iff_falsy_witness :
    (((createTransactionFromPrompt sampleCtx (.output (some promptSalary)) ⟨2024, 0, 1⟩
        sampleDb).res = .err "Incomplete transaction details extracted")
      ↔ (truthy promptSalary.amount = false ∨ truthy promptSalary.type = false
          ∨ truthy promptSalary.category = false))
    ∧ (incompleteCheck promptSalary = false → ∀ ts, promptSalary.type = .str ts →
        ∃ td, buildTxData (⟨1, 1, .val 0, true⟩ : Account).id promptSalary ⟨2024, 0, 1⟩ = .ok td
          ∧ createTransactionFromPrompt sampleCtx (.output (some promptSalary)) ⟨2024, 0, 1⟩
              sampleDb
            = ⟨(createTransaction sampleCtx td sampleDb).res,
               (createTransaction sampleCtx td sampleDb).db,
               [.userLookup, .accountLookup] ++ (createTransaction sampleCtx td sampleDb).events⟩) :=
  promptValidation_iff_falsy sampleCtx "u" ⟨1, "u"⟩ ⟨1, 1, .val 0, true⟩ promptSalary
    ⟨2024, 0, 1⟩ sampleDb rfl rfl rfl

/-- C8 counterexample: the extracted description is present (the empty
string), yet the persisted transaction's description is the category name
rather than that extracted description. -/
theorem promptDescription_counterexample :
    promptEmptyDescription.description = JsVal.str ""
    ∧ ((createTransactionFromPrompt sampleCtx (.output (some promptEmptyDescription)) ⟨2024, 0, 1⟩
        sampleDb).db.transactions.map TxRecord.description) = [JsVal.str "food"]
    ∧ JsVal.str "food" ≠ JsVal.str "" :=
  ⟨rfl, rfl, by decide⟩

/-- C8 amended: when the prompt service delegates, the submitted payload
targets the caller's default account, is non-recurring, carries the
uppercased extracted type and the Number-coerced amount, defaults the
description to the category when the extracted description is falsy
(absent or empty) and the date to the current time when the extracted
date is falsy, and the service returns the delegated outcome. -/
theorem promptDelegation_payload (ctx : Ctx) (uid : String) (user : User)
    (defaultAccount : Account) (d : PromptExtraction) (now : JsDate) (db : DB) (ts : String)
    (hauth : ctx.authUserId = some uid)
    (hu : findUser db uid = some user)
    (hda : findDefaultAccount db user.id = some defaultAccount)
    (hic : incompleteCheck d = false)
    (hty : d.type = .str ts) :
    ∃ td, buildTxData defaultAccount.id d now = .ok td
      ∧ td.accountId = defaultAccount.id
      ∧ td.isRecurring = false
      ∧ td.type = jsToUpper ts
      ∧ td.amount = jsNumberCoerce d.amount
      ∧ td.category = d.category
      ∧ td.description = (if truthy d.description then d.description else d.category)
      ∧ td.date = (if truthy d.date then jsNewDate d.date else now)
      ∧ createTransactionFromPrompt ctx (.output (some d)) now db
          = ⟨(createTransaction ctx td db).res, (createTransaction ctx td db).db,
              [.userLookup, .accountLookup] ++ (createTransaction ctx td db).events⟩ := by
  have hb : buildTxData defaultAccount.id d now = .ok
      { accountId := defaultAccount.id
        type := jsToUpper ts
        amount := jsNumberCoerce d.amount
        category := d.category
        description := if truthy d.description then d.description else d.category
        date := if truthy d.date then jsNewDate d.date else now
        isRecurring := false
        recurringInterval := none } := by
    unfold buildTxData
    rw [hty]
  exact ⟨_, hb, rfl, rfl, rfl, rfl, rfl, rfl, rfl,
    fromPrompt_delegates ctx uid user defaultAccount d now db hauth hu hda hic _ hb⟩

/-- Witness for the amended C8 at a concrete lowercase-typed extraction. -/
theorem promptDelegation_payload_witness :
    ∃ td, buildTxData (⟨1, 1, .val 0, true⟩ : Account).id promptSalary ⟨2024, 0, 1⟩ = .ok td
      ∧ td.accountId = (⟨1, 1, .val 0, true⟩ : Account).id
      ∧ td.isRecurring = false
      ∧ td.type = jsToUpper "income"
      ∧ td.amount = jsNumberCoerce promptSalary.amount
      ∧ td.category = promptSalary.category
      ∧ td.description = (if truthy promptSalary.description then promptSalary.description
          else promptSalary.category)
      ∧ td.date = (if truthy promptSalary.date then jsNewDate promptSalary.date else ⟨2024, 0, 1⟩)
      ∧ createTransactionFromPrompt sampleCtx (.output (some promptSalary)) ⟨2024, 0, 1⟩ sampleDb
          = ⟨(createTransaction sampleCtx td sampleDb).res,
             (createTransaction sampleCtx td sampleDb).db,
             [.userLookup, .accountLookup] ++ (createTransaction sampleCtx td sampleDb).events⟩ :=
  promptDelegation_payload sampleCtx "u" ⟨1, "u"⟩ ⟨1, 1, .val 0, true⟩ promptSalary ⟨2024, 0, 1⟩
    sampleDb "income" rfl rfl rfl (by decide) rfl

/-! ### Concrete binary64 computations for the balance claims -/

lemma rne_lt_half (q : ℚ) (n : ℤ) (hf : ⌊q⌋ = n) (h : q - n < 1/2) : rne q = n := by
  unfold rne
  rw [hf, if_pos h]

lemma rne_gt_half (q : ℚ) (n : ℤ) (hf : ⌊q⌋ = n) (h : 1/2 < q - n) : rne q = n + 1 := by
  unfold rne
  rw [hf, if_neg (by linarith), if_pos h]

lemma rne_half_odd (q : ℚ) (n : ℤ) (hf : ⌊q⌋ = n) (h : q - n = 1/2) (hodd : n % 2 ≠ 0) :
    rne q = n + 1 := by
  unfold rne
  rw [hf, if_neg (by simp [h]), if_neg (by simp [h]), if_neg hodd]

/-- The binary64 value nearest to the decimal one tenth (it is not one
tenth: one tenth is not a dyadic rational). -/
lemma b64round_tenth : b64round (1/10 : ℚ) = 3602879701896397 / 2 ^ 55 := by
  have hf : ⌊(1/10 : ℚ) * 2 ^ ((52:ℤ) - (-4))⌋ = 7205759403792793 := by
    rw [show ((1:ℚ)/10) * 2 ^ ((52:ℤ) - (-4)) = 36028797018963968/5 by norm_num]
    rw [Int.floor_eq_iff] <;> norm_num
  rw [b64round_pos_eq (1/10) (-4) (by norm_num) (by norm_num) (by norm_num) (by norm_num)
    (by norm_num)]
  rw [rne_gt_half _ 7205759403792793 hf (by norm_num)]
  norm_num

/-- Adding the double nearest to one tenth and the double nearest to two
tenths rounds up at a tie, giving the double strictly above three
tenths. -/
lemma b64round_sum_tenths :
    b64round ((3602879701896397 / 2 ^ 55 : ℚ) + 3602879701896397 / 2 ^ 54)
      = 5404319552844596 / 2 ^ 54 := by
  have harg : (3602879701896397 / 2 ^ 55 : ℚ) + 3602879701896397 / 2 ^ 54
      = 10808639105689191 / 2 ^ 55 := by norm_num
  rw [harg]
  have hf : ⌊(10808639105689191 / 2 ^ 55 : ℚ) * 2 ^ ((52:ℤ) - (-2))⌋ = 5404319552844595 := by
    rw [show ((10808639105689191:ℚ) / 2 ^ 55) * 2 ^ ((52:ℤ) - (-2)) = 10808639105689191/2
      by norm_num]
    rw [Int.floor_eq_iff] <;> norm_num
  rw [b64round_pos_eq (10808639105689191 / 2 ^ 55) (-2) (by norm_num) (by norm_num)
    (by norm_num) (by norm_num) (by norm_num)]
  rw [rne_half_odd _ 5404319552844595 hf (by norm_num) (by decide)]
  norm_num

lemma b64round_100 : b64round (100 : ℚ) = 100 := by
  have h := b64round_natCast 100 (by norm_num) (by norm_num)
  push_cast at h
  exact h

lemma b64round_110 : b64round (110 : ℚ) = 110 := by
  have h := b64round_natCast 110 (by norm_num) (by norm_num)
  push_cast at h
  exact h

lemma b64round_120 : b64round (120 : ℚ) = 120 := by
  have h := b64round_natCast 120 (by norm_num) (by norm_num)
  push_cast at h
  exact h

/-- A store whose account holds the exact decimal balance one tenth. -/
def dbTenth : DB := ⟨[⟨1, "u"⟩], [⟨1, 1, .val (1/10), true⟩], []⟩

/-- An income whose amount is the binary64 value a caller obtains from the
numeral 0.2 (the double nearest to two tenths). -/
def dataTwoTenths : TxData :=
  ⟨1, "INCOME", .val (3602879701896397 / 2 ^ 54), .str "salary", .str "pay", ⟨2024, 0, 15⟩,
    false, none⟩

/-- C1 (refuting the exact-arithmetic part): createTransaction converts the
stored decimal balance to a binary64 float and adds in float arithmetic,
so for the stored balance one tenth and the amount obtained from the
numeral 0.2 the persisted balance is the rounded float sum, which differs
from the exact sum of the pre-condition balance and the amount - the
rounding drift the claim rules out. -/
theorem createTransaction_float_drift :
    getAccountBalance (createTransaction sampleCtx dataTwoTenths dbTenth).db 1
      = some (.val (5404319552844596 / 2 ^ 54))
    ∧ (5404319552844596 / 2 ^ 54 : ℚ) ≠ 1 / 10 + 3602879701896397 / 2 ^ 54 := by
  constructor
  · have hrun : getAccountBalance (createTransaction sampleCtx dataTwoTenths dbTenth).db 1
        = some (JsNum.val (b64round (b64round (1/10) + 3602879701896397 / 2 ^ 54))) := rfl
    rw [hrun, b64round_tenth, b64round_sum_tenths]
  · norm_num

/-- A store with the integer balance one hundred. -/
def dbHundred : DB := ⟨[⟨1, "u"⟩], [⟨1, 1, .val 100, true⟩], []⟩

/-- An income of ten against account 1. -/
def incomeTen : TxData := ⟨1, "INCOME", .val 10, .str "salary", .str "a", ⟨2024, 0, 1⟩, false, none⟩

/-- An income of twenty against account 1. -/
def incomeTwenty : TxData :=
  ⟨1, "INCOME", .val 20, .str "salary", .str "b", ⟨2024, 0, 1⟩, false, none⟩

/-- createTransaction is the sequential composition of its two phases: the
balance it writes is the one computed by the read phase against the same
pre-state. -/
lemma createTransaction_phases (ctx : Ctx) (d : TxData) (db : DB) (uid : String) (user : User)
    (account : Account)
    (hauth : ctx.authUserId = some uid) (hallow : ctx.decision = .allow)
    (hu : findUser db uid = some user)
    (hacc : findAccount db d.accountId user.id = some account) :
    readPhase db user.id d = some (newBalanceOf account d)
    ∧ (createTransaction ctx d db).db = writePhase db d user.id (newBalanceOf account d) := by
  constructor
  · unfold readPhase
    rw [hacc]
    rfl
  · unfold createTransaction createTransactionBody
    rw [hauth]
    dsimp only
    rw [hallow]
    dsimp only
    rw [hu]
    dsimp only
    rw [hacc]
    rfl

/-- C5 (refuting serializability): the balance read of lines 42 to 48 runs
outside the atomic unit of lines 50 to 68 and the write stores an absolute
balance, so under the interleaving read-read-write-write of two admitted,
authorized calls against the same account both transaction rows are
persisted but the final balance reflects only the later write: 120 rather
than the claimed 100 + (10 + 20). -/
theorem createTransaction_lost_update :
    readPhase dbHundred 1 incomeTen = some (.val 110)
    ∧ readPhase dbHundred 1 incomeTwenty = some (.val 120)
    ∧ (writePhase (writePhase dbHundred incomeTen 1 (.val 110)) incomeTwenty 1
        (.val 120)).transactions.length = 2
    ∧ getAccountBalance (writePhase (writePhase dbHundred incomeTen 1 (.val 110)) incomeTwenty 1
        (.val 120)) 1 = some (.val 120)
    ∧ (120 : ℚ) ≠ 100 + (10 + 20) := by
  refine ⟨?_, ?_, rfl, rfl, by norm_num⟩
  · have h : readPhase dbHundred 1 incomeTen = some (.val (b64round (b64round 100 + 10))) := rfl
    rw [h, b64round_100, show (100:ℚ) + 10 = 110 by norm_num, b64round_110]
  · have h : readPhase dbHundred 1 incomeTwenty
        = some (.val (b64round (b64round 100 + 20))) := rfl
    rw [h, b64round_100, show (100:ℚ) + 20 = 120 by norm_num, b64round_120]
